import Mathlib

/-!
Verification of the live-session lifecycle and join/waitlist coordination of the
quiz-portal repository. The definitions below are shallow embeddings of the
TypeScript source: LiveQuizManager.tsx (host control), StudentDashboard_backup.tsx
(student view and private-code redemption), LiveQuizLobby.tsx (presence lobby,
waitlist join and countdown auto-start), and the row types of src/types/quiz.ts.
Wall-clock instants are modelled as integers (milliseconds since epoch, the value
of Date.getTime), and database tables as lists of rows.
-/

namespace QuizPortal

/-- Session status enum, from the live_quiz_status enum of the database schema and
the status field of LiveQuizSession in src/types/quiz.ts. -/
inductive Status where
  | waiting
  | in_progress
  | completed
deriving DecidableEq, Repr

/-- Instants are integers: milliseconds since epoch, as produced by Date.getTime. -/
abbrev Time := Int

/-- Row shape of a live quiz session, from the LiveQuizSession interface in
src/types/quiz.ts and the live_quiz_sessions table row type. -/
structure LiveQuizSession where
  id : String
  quiz_id : String
  host_id : String
  join_code : Option String := none
  status : Status
  scheduled_start : Option Time := none
  scheduled_end : Option Time := none
  started_at : Option Time := none
  ended_at : Option Time := none
  created_at : Time := 0
  is_private : Bool := false
  private_join_code : Option String := none
deriving DecidableEq, Repr

/-- Host-side start-eligibility check, from canStartSession in LiveQuizManager.tsx:
false unless status is waiting; when a scheduled start exists, now must have reached
it; with no scheduled start the session is always start-eligible. -/
def canStartSession (session : LiveQuizSession) (now : Time) : Bool :=
  if session.status ≠ Status.waiting then false
  else
    match session.scheduled_start with
    | some start => decide (start ≤ now)
    | none => true

/-- Host-side status badge labels, from getStatusBadge in LiveQuizManager.tsx. -/
inductive HostBadge where
  | completedB
  | liveNow
  | scheduled
  | readyToStart
  | expired
  | waitingB
deriving DecidableEq, Repr

/-- Host-side badge computation, from getStatusBadge in LiveQuizManager.tsx:
completed and in_progress are reported directly; a waiting session with both
schedule fields is Scheduled before the start, ReadyToStart between start and end,
and Expired after the end; otherwise the badge is Waiting. -/
def getStatusBadge (s : LiveQuizSession) (now : Time) : HostBadge :=
  if s.status = Status.completed then HostBadge.completedB
  else if s.status = Status.in_progress then HostBadge.liveNow
  else
    match s.scheduled_start, s.scheduled_end with
    | some st, some et =>
        if now < st then HostBadge.scheduled
        else if st ≤ now ∧ now ≤ et then HostBadge.readyToStart
        else HostBadge.expired
    | _, _ => HostBadge.waitingB

/-- Milliseconds until the scheduled start, clamped at zero, from the student
dashboard card computation in StudentDashboard_backup.tsx (timeUntilStart). -/
def timeUntilStart (s : LiveQuizSession) (now : Time) : Time :=
  match s.scheduled_start with
  | some st => max 0 (st - now)
  | none => 0

/-- The session starts within thirty minutes, from isStartingSoon in the student
dashboard card computation. -/
def isStartingSoon (s : LiveQuizSession) (now : Time) : Bool :=
  decide (0 < timeUntilStart s now) && decide (timeUntilStart s now ≤ 30 * 60 * 1000)

/-- The scheduled start is absent or has passed, from shouldBeActive in the student
dashboard card computation. -/
def shouldBeActive (s : LiveQuizSession) (now : Time) : Bool :=
  match s.scheduled_start with
  | some st => decide (st ≤ now)
  | none => true

/-- The scheduled end exists and has passed, from hasEnded in the student dashboard
card computation. -/
def hasEnded (s : LiveQuizSession) (now : Time) : Bool :=
  match s.scheduled_end with
  | some et => decide (et < now)
  | none => false

/-- The student dashboard counts the session as live, from isLive in the card
computation: status in_progress, or shouldBeActive. -/
def isLive (s : LiveQuizSession) (now : Time) : Bool :=
  decide (s.status = Status.in_progress) || shouldBeActive s now

/-- Student-side badge labels, from the badge ternary in the student dashboard
cards. -/
inductive StudentBadge where
  | liveNow
  | startingSoon
  | ended
  | scheduled
  | waiting
deriving DecidableEq, Repr

/-- Student-side badge computation, from the badge ternary of the live session
cards in StudentDashboard_backup.tsx: isLive, then isStartingSoon, then hasEnded,
then scheduled versus waiting. -/
def studentBadge (s : LiveQuizSession) (now : Time) : StudentBadge :=
  if isLive s now then StudentBadge.liveNow
  else if isStartingSoon s now then StudentBadge.startingSoon
  else if hasEnded s now then StudentBadge.ended
  else if s.scheduled_start.isSome then StudentBadge.scheduled
  else StudentBadge.waiting

/-- The join button of a student live session card is disabled exactly when
hasEnded holds (the disabled prop of the card button). -/
def joinButtonDisabled (s : LiveQuizSession) (now : Time) : Bool :=
  hasEnded s now

/-- Client-side filter of fetchLiveSessions in StudentDashboard_backup.tsx: keep
in_progress sessions; keep waiting sessions unless their scheduled end has passed;
drop everything else (the query itself already restricts to waiting or
in_progress). -/
def availableFilter (s : LiveQuizSession) (now : Time) : Bool :=
  if s.status = Status.in_progress then true
  else if s.status = Status.waiting then
    match s.scheduled_end with
    | some et => decide (now ≤ et)
    | none => true
  else false

/-- C6: canStart(session, now) returns true if and only if the status is waiting
and either there is no scheduled start or now has reached it. -/
theorem canStartSession_iff (s : LiveQuizSession) (now : Time) :
    canStartSession s now = true ↔
      s.status = Status.waiting ∧
        (s.scheduled_start = none ∨ ∃ st, s.scheduled_start = some st ∧ st ≤ now) := by
  unfold canStartSession
  rcases h : s.scheduled_start with _ | st <;>
    by_cases hw : s.status = Status.waiting <;> simp [h, hw]

/-- Concrete session used as the C1 counterexample: waiting, public, with no
schedule fields at all. -/
def noScheduleSession : LiveQuizSession :=
  { id := "s1", quiz_id := "q1", host_id := "h1",
    join_code := some "AAAA11", status := Status.waiting }

/-- C1 counterexample: a waiting session with no scheduledStart is treated as live
and joinable by the student dashboard (isLive is true and the badge reads Live
Now), contradicting the claim that it is not treated as live until a host start
signal arrives. -/
theorem c1_counterexample :
    isLive noScheduleSession 0 = true ∧
      studentBadge noScheduleSession 0 = StudentBadge.liveNow := by
  constructor <;> rfl

/-- C1 (amended): for every waiting session with no scheduledStart and every now,
the host side shows the Waiting badge (manual start required), while the student
dashboard computes shouldBeActive and hence isLive as true, so the session is
treated as live and joinable on the student side without any host start signal. -/
theorem waitingNoSchedule_phase (s : LiveQuizSession) (now : Time)
    (hw : s.status = Status.waiting) (hs : s.scheduled_start = none) :
    getStatusBadge s now = HostBadge.waitingB ∧
      isLive s now = true ∧ studentBadge s now = StudentBadge.liveNow := by
  have hb : getStatusBadge s now = HostBadge.waitingB := by
    unfold getStatusBadge
    simp [hw, hs]
  have hl : isLive s now = true := by
    unfold isLive shouldBeActive
    simp [hs]
  exact ⟨hb, hl, by unfold studentBadge; simp [hl]⟩

/-- Witness for the amended C1 at the concrete no-schedule session. -/
theorem waitingNoSchedule_phase_witness :
    getStatusBadge noScheduleSession 5 = HostBadge.waitingB ∧
      isLive noScheduleSession 5 = true ∧
      studentBadge noScheduleSession 5 = StudentBadge.liveNow :=
  waitingNoSchedule_phase noScheduleSession 5 rfl rfl

/-- Concrete session used as the C5 counterexample: waiting, with a scheduled
start and end that have both passed. -/
def pastEndSession : LiveQuizSession :=
  { id := "s2", quiz_id := "q2", host_id := "h2",
    join_code := some "BBBB22", status := Status.waiting,
    scheduled_start := some 100, scheduled_end := some 200 }

/-- C5 counterexample: for a waiting session whose scheduledEnd lies in the past
while scheduledStart has also passed, the student dashboard badge is Live Now, not
Ended, because isLive takes precedence over hasEnded; so the computed phase is not
Ended as the claim states (the join button is nevertheless disabled). -/
theorem c5_counterexample :
    studentBadge pastEndSession 300 ≠ StudentBadge.ended ∧
      studentBadge pastEndSession 300 = StudentBadge.liveNow := by
  constructor
  · intro h
    simp [studentBadge, isLive, shouldBeActive, pastEndSession] at h
  · rfl

/-- C5 (amended): for every waiting session whose scheduledEnd exists and lies
before now, the student join action is disabled (hasEnded) and the session is
excluded from the fetched available list; when the scheduledStart has also passed,
the student badge shows Live Now rather than Ended, while the host-side badge shows
Expired. -/
theorem waitingPastEnd_phase (s : LiveQuizSession) (now et : Time)
    (hw : s.status = Status.waiting) (he : s.scheduled_end = some et)
    (hlt : et < now) :
    joinButtonDisabled s now = true ∧ availableFilter s now = false ∧
      (∀ st, s.scheduled_start = some st → st ≤ now →
        studentBadge s now = StudentBadge.liveNow ∧
          getStatusBadge s now = HostBadge.expired) := by
  have hd : joinButtonDisabled s now = true := by
    unfold joinButtonDisabled hasEnded
    simp [he, hlt]
  have hnle : ¬ now ≤ et := not_le.mpr hlt
  refine ⟨hd, ?_, ?_⟩
  · unfold availableFilter
    simp [hw, he, hnle]
  · intro st hst hstle
    have hl : isLive s now = true := by
      unfold isLive shouldBeActive
      simp [hst, hstle]
    constructor
    · unfold studentBadge
      simp [hl]
    · unfold getStatusBadge
      have hnl : ¬ now < st := not_lt.mpr hstle
      simp [hw, hst, he, hnl, hstle, hnle]

/-- Witness for the amended C5 at the concrete past-end session. -/
theorem waitingPastEnd_phase_witness :
    joinButtonDisabled pastEndSession 300 = true ∧
      availableFilter pastEndSession 300 = false ∧
      (∀ st, pastEndSession.scheduled_start = some st → st ≤ 300 →
        studentBadge pastEndSession 300 = StudentBadge.liveNow ∧
          getStatusBadge pastEndSession 300 = HostBadge.expired) :=
  waitingPastEnd_phase pastEndSession 300 200 rfl rfl (by decide)

/-- Durable store state: the live_quiz_sessions table together with the two
membership tables, private_quiz_participants and quiz_waitlist, whose rows are
(session_id, student_id) pairs. -/
structure Store where
  sessions : List LiveQuizSession
  privateParticipants : List (String × String)
  waitlist : List (String × String)
deriving DecidableEq, Repr

/-- The student dashboard view state (the currentView useState of
StudentDashboard_backup.tsx). -/
inductive View where
  | dashboard
  | taking
  | results
  | liveLobby
deriving DecidableEq, Repr

/-- Outcome of joinPrivateQuiz, identifying which toast and dialog actions the
source performs on each path: emptyCode and invalidCode and insertFailed raise an
error toast and change nothing else; alreadyJoined raises an info toast, closes the
code dialog and refreshes the session list; joined raises a success toast, closes
the dialog and refreshes. -/
inductive JoinPrivateOutcome where
  | emptyCode
  | invalidCode
  | alreadyJoined
  | insertFailed
  | joined
deriving DecidableEq, Repr

/-- Characters removed from both ends of a string by the JavaScript trim method,
modelled on the char list: leading and trailing whitespace. -/
def trimChars (l : List Char) : List Char :=
  ((l.dropWhile Char.isWhitespace).reverse.dropWhile Char.isWhitespace).reverse

/-- The JavaScript String.prototype.trim call used by joinPrivateQuiz. -/
def jsTrim (s : String) : String :=
  String.mk (trimChars s.data)

/-- The JavaScript String.prototype.toUpperCase call used by joinPrivateQuiz,
mapping each character to its upper-case form. -/
def jsToUpper (s : String) : String :=
  String.mk (s.data.map Char.toUpper)

/-- Code normalization used by the lookup in joinPrivateQuiz: trim then
uppercase. -/
def normalizeCode (code : String) : String :=
  jsToUpper (jsTrim code)

/-- The row predicate of the session lookup in joinPrivateQuiz: the stored
private_join_code equals the normalized submitted code and is_private is true.
The query has no condition on status. -/
def privateCodeMatches (code : String) (s : LiveQuizSession) : Bool :=
  decide (s.private_join_code = some (normalizeCode code)) && s.is_private

/-- The session lookup of joinPrivateQuiz: a select with the privateCodeMatches
conditions ending in a single call, which yields a row exactly when the table
holds exactly one matching row and an error otherwise. -/
def lookupPrivateSession (sessions : List LiveQuizSession) (code : String) :
    Option LiveQuizSession :=
  match sessions.filter (privateCodeMatches code) with
  | [s] => some s
  | _ => none

/-- Store insert into a membership table keyed by (session_id, student_id): the
store rejects a duplicate of the composite key with a duplicate-key error (true in
the returned flag) and leaves the table unchanged; otherwise the row is appended. -/
def insertMembership (rows : List (String × String)) (row : String × String) :
    List (String × String) × Bool :=
  if row ∈ rows then (rows, true) else (rows ++ [row], false)

/-- Result of one joinPrivateQuiz call: the store afterwards, the outcome taken,
and the dashboard view afterwards. -/
structure JoinPrivateResult where
  store : Store
  outcome : JoinPrivateOutcome
  view : View
deriving DecidableEq, Repr

/-- Private-code redemption, from joinPrivateQuiz in StudentDashboard_backup.tsx:
reject a blank code; look up the session by normalized code and is_private (single
row expected); report an invalid code when the lookup fails; report already-joined
and stop when a private_quiz_participants row for (session, student) exists;
otherwise insert that row, reporting a failure if the insert errors. The function
never changes currentView: every path leaves the view argument untouched (the
dialog is closed and the session list refreshed on the success paths instead). -/
def joinPrivateQuiz (store : Store) (userId : String) (code : String) (view : View) :
    JoinPrivateResult :=
  if jsTrim code = "" then
    { store := store, outcome := JoinPrivateOutcome.emptyCode, view := view }
  else
    match lookupPrivateSession store.sessions code with
    | none =>
        { store := store, outcome := JoinPrivateOutcome.invalidCode, view := view }
    | some sessionData =>
        if (sessionData.id, userId) ∈ store.privateParticipants then
          { store := store, outcome := JoinPrivateOutcome.alreadyJoined, view := view }
        else
          let inserted := insertMembership store.privateParticipants (sessionData.id, userId)
          if inserted.2 then
            { store := { store with privateParticipants := inserted.1 },
              outcome := JoinPrivateOutcome.insertFailed, view := view }
          else
            { store := { store with privateParticipants := inserted.1 },
              outcome := JoinPrivateOutcome.joined, view := view }

/-- Concrete completed private session used in the C2 counterexample. -/
def completedPrivateSession : LiveQuizSession :=
  { id := "s3", quiz_id := "q3", host_id := "h3",
    status := Status.completed, is_private := true,
    private_join_code := some "ZZZZ99" }

/-- C2 counterexample: the lookup in joinPrivateQuiz has no status filter, so a
completed private session still matches its code and the redemption inserts a
participant row, contradicting the claim that a session is matched only when its
status is waiting or in_progress. -/
theorem c2_counterexample :
    (joinPrivateQuiz
        { sessions := [completedPrivateSession], privateParticipants := [],
          waitlist := [] } "u1" "ZZZZ99" View.dashboard).outcome
        = JoinPrivateOutcome.joined ∧
      (joinPrivateQuiz
          { sessions := [completedPrivateSession], privateParticipants := [],
            waitlist := [] } "u1" "ZZZZ99" View.dashboard).store.privateParticipants
        = [("s3", "u1")] := by
  constructor <;> rfl

/-- C2 (amended): the lookup matches a session exactly on the normalized (trimmed,
uppercased) code and isPrivate = true, with no condition on status; when no session
matches a non-blank code, the operation fails with the invalid-code error and the
store is left unchanged (no row inserted anywhere), and when exactly one session
matches and the student is not yet a participant, a single participant row is
appended regardless of the session status. -/
theorem joinPrivateQuiz_lookup (store : Store) (uid code : String) (v : View)
    (hcode : ¬ jsTrim code = "") :
    (store.sessions.filter (privateCodeMatches code) = [] →
      (joinPrivateQuiz store uid code v).outcome = JoinPrivateOutcome.invalidCode ∧
        (joinPrivateQuiz store uid code v).store = store) ∧
    (∀ s, store.sessions.filter (privateCodeMatches code) = [s] →
      (s.id, uid) ∉ store.privateParticipants →
      (joinPrivateQuiz store uid code v).outcome = JoinPrivateOutcome.joined ∧
        (joinPrivateQuiz store uid code v).store.privateParticipants
          = store.privateParticipants ++ [(s.id, uid)]) := by
  constructor
  · intro hfil
    unfold joinPrivateQuiz lookupPrivateSession
    simp [hcode, hfil]
  · intro s hfil hnot
    unfold joinPrivateQuiz lookupPrivateSession
    simp [hcode, hfil, hnot, insertMembership]

/-- Witness for the amended C2, applied at a store holding the completed private
session, discharging both branches at concrete inputs. -/
theorem joinPrivateQuiz_lookup_witness :
    ((List.filter (privateCodeMatches "ZZZZ99")
        [completedPrivateSession] = []) →
      (joinPrivateQuiz
          { sessions := [completedPrivateSession], privateParticipants := [],
            waitlist := [] } "u1" "ZZZZ99" View.dashboard).outcome
          = JoinPrivateOutcome.invalidCode ∧
        (joinPrivateQuiz
            { sessions := [completedPrivateSession], privateParticipants := [],
              waitlist := [] } "u1" "ZZZZ99" View.dashboard).store
          = { sessions := [completedPrivateSession], privateParticipants := [],
              waitlist := [] }) ∧
    (∀ s, List.filter (privateCodeMatches "ZZZZ99")
        [completedPrivateSession] = [s] →
      (s.id, "u1") ∉ ([] : List (String × String)) →
      (joinPrivateQuiz
          { sessions := [completedPrivateSession], privateParticipants := [],
            waitlist := [] } "u1" "ZZZZ99" View.dashboard).outcome
          = JoinPrivateOutcome.joined ∧
        (joinPrivateQuiz
            { sessions := [completedPrivateSession], privateParticipants := [],
              waitlist := [] } "u1" "ZZZZ99"
            View.dashboard).store.privateParticipants
          = [] ++ [(s.id, "u1")]) :=
  joinPrivateQuiz_lookup
    { sessions := [completedPrivateSession], privateParticipants := [],
      waitlist := [] } "u1" "ZZZZ99" View.dashboard (by decide)

/-- Concrete waiting private session used in the C8 theorems. -/
def waitingPrivateSession : LiveQuizSession :=
  { id := "s4", quiz_id := "q4", host_id := "h4",
    status := Status.waiting, is_private := true,
    private_join_code := some "YYYY88" }

/-- Concrete store holding only the waiting private session, used in the C8
theorems. -/
def c8Store : Store :=
  { sessions := [waitingPrivateSession], privateParticipants := [], waitlist := [] }

/-- C8 counterexample: redeeming a correct private code does not navigate to the
lobby. Both the first and the second redemption of the same correct code leave the
view unchanged at the dashboard (the dialog is closed and the session list
refreshed instead), contradicting the claim that both attempts end with navigation
to the lobby. -/
theorem c8_counterexample :
    (joinPrivateQuiz c8Store "u2" "YYYY88" View.dashboard).outcome
        = JoinPrivateOutcome.joined ∧
      (joinPrivateQuiz c8Store "u2" "YYYY88" View.dashboard).view ≠ View.liveLobby ∧
      (joinPrivateQuiz
          (joinPrivateQuiz c8Store "u2" "YYYY88" View.dashboard).store "u2" "YYYY88"
          (joinPrivateQuiz c8Store "u2" "YYYY88" View.dashboard).view).outcome
        = JoinPrivateOutcome.alreadyJoined ∧
      (joinPrivateQuiz
          (joinPrivateQuiz c8Store "u2" "YYYY88" View.dashboard).store "u2" "YYYY88"
          (joinPrivateQuiz c8Store "u2" "YYYY88" View.dashboard).view).view
        ≠ View.liveLobby := by
  refine ⟨rfl, ?_, rfl, ?_⟩ <;> decide

/-- C8 (amended): redeeming the same correct private code twice for the same
student leaves exactly one PrivateParticipant row for the (sessionId, studentId)
pair, and the second redemption is treated as already-joined success rather than an
error; both attempts close the code dialog and refresh the session list but leave
the current view unchanged (neither navigates to the lobby). -/
theorem joinPrivateQuiz_idempotent (store : Store) (uid code : String) (v : View)
    (s : LiveQuizSession)
    (hcode : ¬ jsTrim code = "")
    (hone : store.sessions.filter (privateCodeMatches code) = [s])
    (hnot : (s.id, uid) ∉ store.privateParticipants) :
    (joinPrivateQuiz store uid code v).outcome = JoinPrivateOutcome.joined ∧
      (joinPrivateQuiz (joinPrivateQuiz store uid code v).store uid code
          (joinPrivateQuiz store uid code v).view).outcome
        = JoinPrivateOutcome.alreadyJoined ∧
      (joinPrivateQuiz (joinPrivateQuiz store uid code v).store uid code
            (joinPrivateQuiz store uid code v).view).store.privateParticipants.count
          (s.id, uid) = 1 ∧
      (joinPrivateQuiz (joinPrivateQuiz store uid code v).store uid code
          (joinPrivateQuiz store uid code v).view).view = v := by
  have h1 : joinPrivateQuiz store uid code v
      = { store := { store with privateParticipants
              := store.privateParticipants ++ [(s.id, uid)] },
          outcome := JoinPrivateOutcome.joined, view := v } := by
    unfold joinPrivateQuiz lookupPrivateSession
    simp [hcode, hone, hnot, insertMembership]
  have hmem : (s.id, uid) ∈ store.privateParticipants ++ [(s.id, uid)] := by
    simp
  have h2 : joinPrivateQuiz
      { store with privateParticipants := store.privateParticipants ++ [(s.id, uid)] }
      uid code v
      = { store := { store with privateParticipants
              := store.privateParticipants ++ [(s.id, uid)] },
          outcome := JoinPrivateOutcome.alreadyJoined, view := v } := by
    unfold joinPrivateQuiz lookupPrivateSession
    simp [hcode, hone, hmem]
  rw [h1]
  simp only [h2]
  have hc : store.privateParticipants.count (s.id, uid) = 0 :=
    List.count_eq_zero.mpr hnot
  simp [List.count_append, hc]

/-- Witness for the amended C8 at the concrete waiting private session. -/
theorem joinPrivateQuiz_idempotent_witness :
    (joinPrivateQuiz c8Store "u2" "YYYY88" View.dashboard).outcome
        = JoinPrivateOutcome.joined ∧
      (joinPrivateQuiz (joinPrivateQuiz c8Store "u2" "YYYY88" View.dashboard).store
          "u2" "YYYY88"
          (joinPrivateQuiz c8Store "u2" "YYYY88" View.dashboard).view).outcome
        = JoinPrivateOutcome.alreadyJoined ∧
      (joinPrivateQuiz (joinPrivateQuiz c8Store "u2" "YYYY88" View.dashboard).store
            "u2" "YYYY88"
            (joinPrivateQuiz c8Store "u2" "YYYY88"
              View.dashboard).view).store.privateParticipants.count
          ("s4", "u2") = 1 ∧
      (joinPrivateQuiz (joinPrivateQuiz c8Store "u2" "YYYY88" View.dashboard).store
          "u2" "YYYY88"
          (joinPrivateQuiz c8Store "u2" "YYYY88" View.dashboard).view).view
        = View.dashboard :=
  joinPrivateQuiz_idempotent c8Store "u2" "YYYY88" View.dashboard
    waitingPrivateSession (by decide) (by rfl) (by simp [c8Store])

/-- Outcome of ensureUserInWaitlist in LiveQuizLobby.tsx. None of the three paths
raises any toast or other user-visible error: alreadyPresent skips the insert,
inserted succeeds, and duplicateIgnored is a duplicate-key insert failure that the
source filters out of even its console logging (the error message contains the
text duplicate key). -/
inductive WaitlistOutcome where
  | alreadyPresent
  | inserted
  | duplicateIgnored
deriving DecidableEq, Repr

/-- Waitlist join, from ensureUserInWaitlist in LiveQuizLobby.tsx: first query for
an existing (session, student) row, insert only when none was seen, and treat a
duplicate-key failure of the insert as success. The checkSnapshot argument is the
waitlist contents the existence check reads: for a single sequential call it is the
current table, while a concurrent second click reads a stale snapshot taken before
the first insert landed (the store itself operates on rows). -/
def ensureUserInWaitlist (checkSnapshot rows : List (String × String))
    (sessionId userId : String) : List (String × String) × WaitlistOutcome :=
  if (sessionId, userId) ∈ checkSnapshot then
    (rows, WaitlistOutcome.alreadyPresent)
  else
    let inserted := insertMembership rows (sessionId, userId)
    if inserted.2 then (inserted.1, WaitlistOutcome.duplicateIgnored)
    else (inserted.1, WaitlistOutcome.inserted)

/-- C7: calling the waitlist join twice for the same (session, user) pair leaves
exactly one WaitlistEntry row for the pair, and the second call surfaces no
user-visible error. The first conjunct covers the sequential double call (the
second call sees the row and reports alreadyPresent); the second covers the
concurrent double click in which both existence checks read the initial snapshot,
so the second insert hits the duplicate-key error and is treated as success
(duplicateIgnored), never surfaced. The hypothesis is the composite-key uniqueness
invariant of the store. -/
theorem ensureUserInWaitlist_idempotent (rows : List (String × String))
    (sid uid : String) (hinv : rows.count (sid, uid) ≤ 1) :
    ((ensureUserInWaitlist (ensureUserInWaitlist rows rows sid uid).1
          (ensureUserInWaitlist rows rows sid uid).1 sid uid).1.count (sid, uid) = 1 ∧
      (ensureUserInWaitlist (ensureUserInWaitlist rows rows sid uid).1
          (ensureUserInWaitlist rows rows sid uid).1 sid uid).2
        = WaitlistOutcome.alreadyPresent) ∧
    ((ensureUserInWaitlist rows (ensureUserInWaitlist rows rows sid uid).1
          sid uid).1.count (sid, uid) = 1 ∧
      ((ensureUserInWaitlist rows (ensureUserInWaitlist rows rows sid uid).1
            sid uid).2 = WaitlistOutcome.alreadyPresent ∨
        (ensureUserInWaitlist rows (ensureUserInWaitlist rows rows sid uid).1
            sid uid).2 = WaitlistOutcome.duplicateIgnored)) := by
  by_cases hmem : (sid, uid) ∈ rows
  · have hcnt : rows.count (sid, uid) = 1 := by
      have := List.count_pos_iff.mpr hmem
      omega
    have h1 : ensureUserInWaitlist rows rows sid uid
        = (rows, WaitlistOutcome.alreadyPresent) := by
      unfold ensureUserInWaitlist
      simp [hmem]
    simp [h1, hcnt]
  · have h1 : ensureUserInWaitlist rows rows sid uid
        = (rows ++ [(sid, uid)], WaitlistOutcome.inserted) := by
      unfold ensureUserInWaitlist insertMembership
      simp [hmem]
    have hmem2 : (sid, uid) ∈ rows ++ [(sid, uid)] := by simp
    have hcnt : (rows ++ [(sid, uid)]).count (sid, uid) = 1 := by
      simp [List.count_append, List.count_eq_zero.mpr hmem]
    rw [h1]
    constructor
    · have h2 : ensureUserInWaitlist (rows ++ [(sid, uid)]) (rows ++ [(sid, uid)])
          sid uid = (rows ++ [(sid, uid)], WaitlistOutcome.alreadyPresent) := by
        unfold ensureUserInWaitlist
        simp [hmem2]
      rw [h2]
      exact ⟨hcnt, rfl⟩
    · have h2 : ensureUserInWaitlist rows (rows ++ [(sid, uid)]) sid uid
          = (rows ++ [(sid, uid)], WaitlistOutcome.duplicateIgnored) := by
        unfold ensureUserInWaitlist insertMembership
        simp [hmem, hmem2]
      rw [h2]
      exact ⟨hcnt, Or.inr rfl⟩

/-- Witness for C7 at a concrete waitlist holding one unrelated entry. -/
theorem ensureUserInWaitlist_idempotent_witness :
    (List.count ("sX", "uX") [("sY", "uY")] ≤ 1) ∧
      ((ensureUserInWaitlist
            (ensureUserInWaitlist [("sY", "uY")] [("sY", "uY")] "sX" "uX").1
            (ensureUserInWaitlist [("sY", "uY")] [("sY", "uY")] "sX" "uX").1
            "sX" "uX").1.count ("sX", "uX") = 1 ∧
        (ensureUserInWaitlist
            (ensureUserInWaitlist [("sY", "uY")] [("sY", "uY")] "sX" "uX").1
            (ensureUserInWaitlist [("sY", "uY")] [("sY", "uY")] "sX" "uX").1
            "sX" "uX").2 = WaitlistOutcome.alreadyPresent) ∧
      ((ensureUserInWaitlist [("sY", "uY")]
            (ensureUserInWaitlist [("sY", "uY")] [("sY", "uY")] "sX" "uX").1
            "sX" "uX").1.count ("sX", "uX") = 1 ∧
        ((ensureUserInWaitlist [("sY", "uY")]
              (ensureUserInWaitlist [("sY", "uY")] [("sY", "uY")] "sX" "uX").1
              "sX" "uX").2 = WaitlistOutcome.alreadyPresent ∨
          (ensureUserInWaitlist [("sY", "uY")]
              (ensureUserInWaitlist [("sY", "uY")] [("sY", "uY")] "sX" "uX").1
              "sX" "uX").2 = WaitlistOutcome.duplicateIgnored)) :=
  ⟨by decide,
    ensureUserInWaitlist_idempotent [("sY", "uY")] "sX" "uX" (by decide)⟩

/-- Local one-second countdown state of the lobby with a scheduled start, from the
hasAutoStarted and timeUntilStart useState pair in LiveQuizLobby.tsx. -/
structure LobbyTimerState where
  hasAutoStarted : Bool
  timeUntilStart : Time
deriving DecidableEq, Repr

/-- One tick of updateCountdown in LiveQuizLobby.tsx: timeDiff is the milliseconds
until the scheduled start; when it is non-positive and the one-shot latch is still
unset, the latch is set and the enter-live-quiz action onQuizStart fires (the
returned flag) and the tick returns early; otherwise only the displayed countdown
is updated. -/
def updateCountdown (scheduledStart : Time) (now : Time) (st : LobbyTimerState) :
    LobbyTimerState × Bool :=
  let timeDiff := scheduledStart - now
  if timeDiff ≤ 0 ∧ st.hasAutoStarted = false then
    ({ st with hasAutoStarted := true }, true)
  else
    ({ st with timeUntilStart := max 0 timeDiff }, false)

/-- Runs updateCountdown over a list of observed clock values, one per one-second
timer tick, counting how many times the enter-live-quiz action fires. -/
def runTicks (scheduledStart : Time) (ticks : List Time) (st : LobbyTimerState) :
    LobbyTimerState × Nat :=
  match ticks with
  | [] => (st, 0)
  | now :: rest =>
      let step := updateCountdown scheduledStart now st
      let restRun := runTicks scheduledStart rest step.1
      (restRun.1, (if step.2 then 1 else 0) + restRun.2)

/-- Once the latch is set, no later tick ever fires the action again. -/
theorem runTicks_latched (scheduledStart : Time) (ticks : List Time)
    (st : LobbyTimerState) (h : st.hasAutoStarted = true) :
    (runTicks scheduledStart ticks st).2 = 0 ∧
      (runTicks scheduledStart ticks st).1.hasAutoStarted = true := by
  induction ticks generalizing st with
  | nil => exact ⟨rfl, h⟩
  | cons now rest ih =>
      unfold runTicks updateCountdown
      simp [h]
      exact ih _ rfl

/-- C9: over the whole lifetime of a lobby view with a scheduled start, the
enter-live-quiz action triggered by the one-second countdown fires exactly once
upon the first tick observing now at or past scheduledStart, and never again on
later ticks satisfying the condition: starting from an unlatched state, the total
number of fires over any tick sequence is one when some tick satisfies the
condition and zero otherwise. -/
theorem runTicks_fires_once (scheduledStart : Time) (ticks : List Time)
    (st : LobbyTimerState) (h : st.hasAutoStarted = false) :
    (runTicks scheduledStart ticks st).2
      = (if ticks.any (fun t => decide (scheduledStart ≤ t)) then 1 else 0) := by
  induction ticks generalizing st with
  | nil => rfl
  | cons now rest ih =>
      by_cases hc : scheduledStart - now ≤ 0
      · have hnow : scheduledStart ≤ now := sub_nonpos.mp hc
        have hstep : updateCountdown scheduledStart now st
            = ({ st with hasAutoStarted := true }, true) := by
          unfold updateCountdown
          simp [hc, h]
        have hlat := (runTicks_latched scheduledStart rest
          { st with hasAutoStarted := true } rfl).1
        unfold runTicks
        rw [hstep]
        simp [hnow, hlat]
      · have hnnow : ¬ scheduledStart ≤ now := fun hle => hc (sub_nonpos.mpr hle)
        have hstep : updateCountdown scheduledStart now st
            = ({ st with timeUntilStart := max 0 (scheduledStart - now) }, false) := by
          unfold updateCountdown
          simp [hc]
        have hrest := ih { st with timeUntilStart := max 0 (scheduledStart - now) } h
        unfold runTicks
        rw [hstep]
        simp [hnnow, hrest]

/-- Witness for C9 at a concrete tick sequence straddling the scheduled start: two
ticks before the start and three at or after it produce exactly one fire. -/
theorem runTicks_fires_once_witness :
    (runTicks 1000 [998, 999, 1000, 1001, 1002]
        { hasAutoStarted := false, timeUntilStart := 0 }).2
      = (if List.any [998, 999, 1000, 1001, 1002]
            (fun t => decide ((1000 : Time) ≤ t)) then 1 else 0) :=
  runTicks_fires_once 1000 [998, 999, 1000, 1001, 1002]
    { hasAutoStarted := false, timeUntilStart := 0 } rfl

/-- Presence payload tracked on the lobby channel: the user_id and display_name
fields announced by track in LiveQuizLobby.tsx. -/
structure PresencePayload where
  user_id : String
  display_name : String
deriving DecidableEq, Repr

/-- The presence sync handler of LiveQuizLobby.tsx: the presence state maps each
presence key to the list of payloads tracked under it; the handler takes the first
payload of each key and keeps only payloads whose user_id and display_name are
both truthy (non-empty), and stores the result as the visible participant list.
A key with no payload contributes nothing. -/
def syncParticipants (presenceState : List (String × List PresencePayload)) :
    List PresencePayload :=
  ((presenceState.map Prod.snd).filterMap List.head?).filter
    (fun p => decide (p.user_id ≠ "") && decide (p.display_name ≠ ""))

/-- C10: the visible participant list recomputed on a presence sync contains only
entries carrying a non-empty user_id and a non-empty display_name, holds at most
one entry per presence key, and every entry is the first payload tracked under
some key; payloads missing either field are silently excluded. -/
theorem syncParticipants_spec (presenceState : List (String × List PresencePayload)) :
    (∀ p ∈ syncParticipants presenceState,
        p.user_id ≠ "" ∧ p.display_name ≠ "" ∧
          ∃ entry ∈ presenceState, entry.2.head? = some p) ∧
      (syncParticipants presenceState).length ≤ presenceState.length := by
  constructor
  · intro p hp
    unfold syncParticipants at hp
    have hmem := List.mem_of_mem_filter hp
    have hprop := List.of_mem_filter hp
    simp only [Bool.and_eq_true, decide_eq_true_eq] at hprop
    refine ⟨hprop.1, hprop.2, ?_⟩
    rcases List.mem_filterMap.mp hmem with ⟨l, hl, hhead⟩
    rcases List.mem_map.mp hl with ⟨entry, hentry, hsnd⟩
    exact ⟨entry, hentry, by rw [hsnd]; exact hhead⟩
  · calc (syncParticipants presenceState).length
        ≤ ((presenceState.map Prod.snd).filterMap List.head?).length :=
          List.length_filter_le _ _
      _ ≤ (presenceState.map Prod.snd).length := List.length_filterMap_le _ _
      _ = presenceState.length := List.length_map _ _

/-- Witness for C10 at a concrete presence state: one valid payload, one with an
empty display_name, and one key with no payload. -/
theorem syncParticipants_spec_witness :
    (∀ p ∈ syncParticipants
        [("k1", [{ user_id := "u1", display_name := "Ada" }]),
         ("k2", [{ user_id := "u2", display_name := "" }]),
         ("k3", [])],
        p.user_id ≠ "" ∧ p.display_name ≠ "" ∧
          ∃ entry ∈ [("k1", [{ user_id := "u1", display_name := "Ada" }]),
              ("k2", [{ user_id := "u2", display_name := "" }]),
              ("k3", ([] : List PresencePayload))], entry.2.head? = some p) ∧
      (syncParticipants
          [("k1", [{ user_id := "u1", display_name := "Ada" }]),
           ("k2", [{ user_id := "u2", display_name := "" }]),
           ("k3", [])]).length
        ≤ 3 :=
  syncParticipants_spec
    [("k1", [{ user_id := "u1", display_name := "Ada" }]),
     ("k2", [{ user_id := "u2", display_name := "" }]),
     ("k3", [])]

/-- A broadcast event sent on a realtime channel, with the channel name and the
event name. -/
structure BroadcastEvent where
  channel : String
  event : String
deriving DecidableEq, Repr

/-- Modelled from the spec: the onStartSession callback that LiveQuizManager
invokes after a successful store update is provided by a parent component that is
not among the source files; per the spec it emits the one-shot quiz-started
broadcast on the per-session presence channel, whose name is live-quiz-session-
followed by the session id, the exact channel and event the lobby subscribes to. -/
def onStartSessionBroadcast (session : LiveQuizSession) : List BroadcastEvent :=
  [{ channel := "live-quiz-session-" ++ session.id, event := "quiz_started" }]

/-- Host start operation, from handleStartSession in LiveQuizManager.tsx: update
the live_quiz_sessions row whose id equals the session id, setting status to
in_progress and started_at to the current time, then (on store success) invoke
onStartSession, which emits the start broadcast. The returned pair is the session
table afterwards and the list of emitted broadcast events. -/
def handleStartSession (store : List LiveQuizSession) (session : LiveQuizSession)
    (now : Time) : List LiveQuizSession × List BroadcastEvent :=
  (store.map (fun r =>
      if r.id = session.id then
        { r with status := Status.in_progress, started_at := some now }
      else r),
    onStartSessionBroadcast session)

/-- C3: startSession sets the session status to in_progress and startedAt to the
current time in the session store, leaves every other row unchanged, and then
emits exactly the one-shot quiz-started broadcast on that session presence
channel. -/
theorem handleStartSession_spec (store : List LiveQuizSession)
    (s : LiveQuizSession) (now : Time) :
    (∀ r ∈ store, r.id = s.id →
        { r with status := Status.in_progress, started_at := some now }
          ∈ (handleStartSession store s now).1) ∧
      (∀ r ∈ store, r.id ≠ s.id → r ∈ (handleStartSession store s now).1) ∧
      (handleStartSession store s now).2
        = [{ channel := "live-quiz-session-" ++ s.id, event := "quiz_started" }] := by
  refine ⟨?_, ?_, rfl⟩
  · intro r hr hid
    unfold handleStartSession
    simp only [List.mem_map]
    exact ⟨r, hr, by simp [hid]⟩
  · intro r hr hid
    unfold handleStartSession
    simp only [List.mem_map]
    exact ⟨r, hr, by simp [hid]⟩

/-- Witness for C3 at a one-row store holding the no-schedule session. -/
theorem handleStartSession_spec_witness :
    (∀ r ∈ [noScheduleSession], r.id = noScheduleSession.id →
        { r with status := Status.in_progress, started_at := some 7 }
          ∈ (handleStartSession [noScheduleSession] noScheduleSession 7).1) ∧
      (∀ r ∈ [noScheduleSession], r.id ≠ noScheduleSession.id →
        r ∈ (handleStartSession [noScheduleSession] noScheduleSession 7).1) ∧
      (handleStartSession [noScheduleSession] noScheduleSession 7).2
        = [{ channel := "live-quiz-session-" ++ noScheduleSession.id,
             event := "quiz_started" }] :=
  handleStartSession_spec [noScheduleSession] noScheduleSession 7

/-- Rank of a status in the order waiting, in_progress, completed. -/
def statusRank : Status → Nat
  | Status.waiting => 0
  | Status.in_progress => 1
  | Status.completed => 2

/-- The operations of the system that touch the live_quiz_sessions table, as they
are wired in the source: create is the insert of LiveQuizCreator, which always
supplies status waiting and no started_at or ended_at; start is the Start button,
which is rendered only while canStartSession holds for the session and then runs
handleStartSession on it; delete is the Delete button, rendered only while the
status is waiting. No code under the source ever writes status completed. -/
inductive HostOp where
  | create (s : LiveQuizSession)
  | start (sid : String) (now : Time)
  | delete (sid : String)

/-- Applies one host operation to the session table. The create insert is
rejected by the store when the primary key already exists; the start update
applies the render-time canStartSession guard to the row it updates; the delete
removes the row only while its status is waiting. -/
def applyOp (store : List LiveQuizSession) : HostOp → List LiveQuizSession
  | HostOp.create s =>
      if store.any (fun r => decide (r.id = s.id)) then store
      else
        store ++
          [{ s with status := Status.waiting, started_at := none, ended_at := none }]
  | HostOp.start sid now =>
      store.map (fun r =>
        if r.id = sid ∧ canStartSession r now = true then
          { r with status := Status.in_progress, started_at := some now }
        else r)
  | HostOp.delete sid =>
      store.filter (fun r =>
        ! (decide (r.id = sid) && decide (r.status = Status.waiting)))

/-- Applies a sequence of host operations left to right. -/
def runOps (store : List LiveQuizSession) (ops : List HostOp) :
    List LiveQuizSession :=
  ops.foldl applyOp store

/-- The persisted status of the session with the given id, when a row for it
exists. -/
def statusOf (store : List LiveQuizSession) (sid : String) : Option Status :=
  (store.find? (fun r => decide (r.id = sid))).map (fun r => r.status)

/-- Monotonicity measure over the optional status of an id: an absent row counts
as rank zero, since a row can only be deleted while waiting and only recreated as
waiting. -/
def phaseMeasure : Option Status → Nat
  | none => 0
  | some st => statusRank st

/-- Primary-key invariant of the session table: distinct rows carry distinct
ids. -/
def distinctIds (store : List LiveQuizSession) : Prop :=
  store.Pairwise (fun a b => a.id ≠ b.id)

/-- A session that passes canStartSession has status waiting. -/
theorem canStartSession_waiting (r : LiveQuizSession) (now : Time)
    (h : canStartSession r now = true) : r.status = Status.waiting := by
  unfold canStartSession at h
  by_cases hw : r.status = Status.waiting
  · exact hw
  · simp [hw] at h

/-- The start update preserves the id of every row. -/
theorem startRow_id (sid : String) (now : Time) (r : LiveQuizSession) :
    (if r.id = sid ∧ canStartSession r now = true then
        { r with status := Status.in_progress, started_at := some now }
      else r).id = r.id := by
  by_cases h : r.id = sid ∧ canStartSession r now = true <;> simp [h]

/-- Each host operation preserves the primary-key invariant. -/
theorem distinctIds_applyOp (store : List LiveQuizSession) (op : HostOp)
    (h : distinctIds store) : distinctIds (applyOp store op) := by
  cases op with
  | create s =>
      simp only [applyOp]
      by_cases hany : store.any (fun r => decide (r.id = s.id)) = true
      · simpa [hany] using h
      · simp only [hany, if_false, Bool.false_eq_true]
        refine List.pairwise_append.mpr ⟨h, ?_, ?_⟩
        · simp [List.pairwise_singleton]
        · intro a ha b hb
          simp only [List.mem_singleton] at hb
          subst hb
          simp only [List.any_eq_true, not_exists, not_and] at hany
          intro hid
          exact absurd (by simpa using hany a ha) (by simp [hid])
  | start sid now =>
      simp only [applyOp]
      refine List.pairwise_map.mpr ?_
      refine h.imp ?_
      intro a b hab
      rw [startRow_id, startRow_id]
      exact hab
  | delete sid =>
      simp only [applyOp]
      exact List.Pairwise.sublist (List.filter_sublist _) h

/-- Under the primary-key invariant, any two rows of the table that share an id
are equal. -/
theorem row_unique (store : List LiveQuizSession) (h : distinctIds store)
    (a : LiveQuizSession) (ha : a ∈ store) (b : LiveQuizSession) (hb : b ∈ store)
    (hid : a.id = b.id) : a = b := by
  by_contra hne
  have hsym : Symmetric (fun x y : LiveQuizSession => x.id ≠ y.id) :=
    fun x y hxy => fun hyx => hxy hyx.symm
  exact (h.forall hsym ha hb hne) hid

/-- Filtering a list whose p-elements are pairwise equal turns the first p-match
into its filtered counterpart: the match survives exactly when it passes the
filter, and otherwise no p-element remains. -/
theorem find?_filter_of_unique {α : Type} (l : List α) (p q : α → Bool)
    (huniq : ∀ a ∈ l, ∀ b ∈ l, p a = true → p b = true → a = b) :
    (l.filter q).find? p
      = match l.find? p with
        | none => none
        | some r => if q r then some r else none := by
  induction l with
  | nil => rfl
  | cons a t ih =>
      by_cases hpa : p a = true
      · rw [List.find?_cons_of_pos _ hpa]
        by_cases hqa : q a = true
        · rw [List.filter_cons_of_pos hqa, List.find?_cons_of_pos _ hpa]
          simp [hqa]
        · rw [List.filter_cons_of_neg (by simpa using hqa)]
          have hnone : List.find? p (List.filter q t) = none := by
            refine List.find?_eq_none.mpr ?_
            intro x hx hpx
            have hxt : x ∈ t := (List.mem_filter.mp hx).1
            have hxa : x = a := huniq x (List.mem_cons_of_mem a hxt) a
              (List.mem_cons_self a t) hpx hpa
            exact hqa (hxa ▸ (List.mem_filter.mp hx).2)
          simp [hnone, hqa]
      · have huniq' : ∀ x ∈ t, ∀ y ∈ t, p x = true → p y = true → x = y :=
          fun x hx y hy => huniq x (List.mem_cons_of_mem a hx) y
            (List.mem_cons_of_mem a hy)
        rw [List.find?_cons_of_neg _ (by simpa using hpa)]
        by_cases hqa : q a = true
        · rw [List.filter_cons_of_pos hqa,
            List.find?_cons_of_neg _ (by simpa using hpa)]
          exact ih huniq'
        · rw [List.filter_cons_of_neg (by simpa using hqa)]
          exact ih huniq'

/-- One host operation never decreases the phase measure of any session id. -/
theorem phaseMeasure_applyOp (store : List LiveQuizSession) (op : HostOp)
    (sid : String) (h : distinctIds store) :
    phaseMeasure (statusOf store sid) ≤ phaseMeasure (statusOf (applyOp store op) sid) := by
  rcases hfind : store.find? (fun r => decide (r.id = sid)) with _ | r
  · simp [statusOf, hfind, phaseMeasure]
  cases op with
  | create s =>
      simp only [applyOp]
      by_cases hany : store.any (fun r => decide (r.id = s.id)) = true
      · simp [hany, statusOf, hfind]
      · simp only [hany, if_false, Bool.false_eq_true, statusOf]
        rw [List.find?_append, hfind]
        simp
  | start sid' now =>
      simp only [applyOp]
      have hpf : ((fun r : LiveQuizSession => decide (r.id = sid)) ∘
          (fun r => if r.id = sid' ∧ canStartSession r now = true then
              { r with status := Status.in_progress, started_at := some now }
            else r))
          = (fun r : LiveQuizSession => decide (r.id = sid)) := by
        funext r
        simp only [Function.comp_apply]
        rw [startRow_id]
      simp only [statusOf]
      rw [List.find?_map, hpf, hfind]
      by_cases hg : r.id = sid' ∧ canStartSession r now = true
      · have hst : r.status = Status.waiting := canStartSession_waiting r now hg.2
        simp [statusOf, hfind, phaseMeasure, hg, hst, statusRank]
      · simp [statusOf, hfind, phaseMeasure, hg]
  | delete sid' =>
      simp only [applyOp]
      have huniq : ∀ a ∈ store, ∀ b ∈ store,
          (fun r : LiveQuizSession => decide (r.id = sid)) a = true →
          (fun r : LiveQuizSession => decide (r.id = sid)) b = true → a = b := by
        intro a ha b hb hpa hpb
        simp only [decide_eq_true_eq] at hpa hpb
        exact row_unique store h a ha b hb (hpa.trans hpb.symm)
      simp only [statusOf]
      rw [find?_filter_of_unique _ _ _ huniq, hfind]
      by_cases hq : (! (decide (r.id = sid') && decide (r.status = Status.waiting))) = true
      · simp [statusOf, hfind, hq]
      · have hw : r.status = Status.waiting := by
          simp at hq
          exact hq.2
        simp [statusOf, hfind, hq, phaseMeasure, hw, statusRank]

/-- A sequence of host operations never decreases the phase measure of any
session id. -/
theorem phaseMeasure_runOps (ops : List HostOp) (store : List LiveQuizSession)
    (sid : String) (h : distinctIds store) :
    phaseMeasure (statusOf store sid) ≤ phaseMeasure (statusOf (runOps store ops) sid) := by
  induction ops generalizing store with
  | nil => exact le_refl _
  | cons op rest ih =>
      exact le_trans (phaseMeasure_applyOp store op sid h)
        (ih (applyOp store op) (distinctIds_applyOp store op h))

/-- C4: under every operation of the system the persisted status only moves
forward along waiting, in_progress, completed. Starting from a table satisfying
the primary-key invariant, after any sequence of host operations the status of any
session that exists before and after has a rank at least as large as before; in
particular no operation ever moves a status backward, so any observed status
sequence of a session is a subsequence of (waiting, in_progress, completed). -/
theorem status_monotone (store : List LiveQuizSession) (ops : List HostOp)
    (sid : String) (st st' : Status) (hids : distinctIds store)
    (h1 : statusOf store sid = some st)
    (h2 : statusOf (runOps store ops) sid = some st') :
    statusRank st ≤ statusRank st' := by
  have hmono := phaseMeasure_runOps ops store sid hids
  rw [h1, h2] at hmono
  simpa [phaseMeasure] using hmono

/-- Witness for C4: starting the concrete waiting no-schedule session moves its
status from waiting to in_progress, and the ranks are in order. -/
theorem status_monotone_witness :
    statusRank Status.waiting ≤ statusRank Status.in_progress :=
  status_monotone [noScheduleSession] [HostOp.start "s1" 5] "s1"
    Status.waiting Status.in_progress
    (by simp [distinctIds]) (by decide) (by decide)

end QuizPortal
